import Mathlib

/-!
Shallow embedding of the `skibot` simulator (`scripts/skibot_node.py`):
the `Skibot` physics engine (friction model, pose integration, boundary
bounce), the teleport service handler, the command staleness fail-safe of
the main loop, and the pose publication code.  Machine floats are modelled
as real numbers; `np.sign` is `Real.sign`, `np.clip` is a min/max clamp,
`np.linalg.norm` is the Euclidean norm via `Real.sqrt`.
-/

noncomputable section

namespace Skibot

/-- `GRAVITY = 9.8` (m/s^2). -/
def GRAVITY : ℝ := 9.8

/-- `MU = .03`, coefficient of friction of the ice. -/
def MU : ℝ := 0.03

/-- `PIXELS_PER_METER = 120`. -/
def PIXELS_PER_METER : ℝ := 120

/-- `SCREEN_WIDTH_PX = 480`. -/
def SCREEN_WIDTH_PX : ℝ := 480

/-- `SCREEN_HEIGHT_PX = 480`. -/
def SCREEN_HEIGHT_PX : ℝ := 480

/-- `SCREEN_WIDTH_M = float(SCREEN_WIDTH_PX) / PIXELS_PER_METER`. -/
def SCREEN_WIDTH_M : ℝ := SCREEN_WIDTH_PX / PIXELS_PER_METER

/-- `SCREEN_HEIGHT_M = float(SCREEN_HEIGHT_PX) / PIXELS_PER_METER`. -/
def SCREEN_HEIGHT_M : ℝ := SCREEN_HEIGHT_PX / PIXELS_PER_METER

/-- Class attribute `Skibot.MAX_FORCE = 5.0`. -/
def MAX_FORCE : ℝ := 5.0

/-- Class attribute `Skibot.MAX_TORQUE = .2`. -/
def MAX_TORQUE : ℝ := 0.2

/-- Class attribute `Skibot.MASS = 1.0` (kg). -/
def MASS : ℝ := 1.0

/-- Class attribute `Skibot.WIDTH = .3` (meters). -/
def WIDTH : ℝ := 0.3

/-- `LINEAR_FRICTION = MU * MASS * GRAVITY`. -/
def LINEAR_FRICTION : ℝ := MU * MASS * GRAVITY

/-- `MOMENT_OF_INERTIA = .5 * MASS * (WIDTH/2.0)**2`. -/
def MOMENT_OF_INERTIA : ℝ := 0.5 * MASS * (WIDTH / 2) ^ 2

/-- `TORQUE_FRICTION = .66 * MU * MASS * GRAVITY * (WIDTH / 2.0)`. -/
def TORQUE_FRICTION : ℝ := 0.66 * MU * MASS * GRAVITY * (WIDTH / 2)

/-- A 2-d vector, standing for the `numpy` arrays `self.pos` and `self.vel`. -/
structure Vec2 where
  x : ℝ
  y : ℝ
  deriving DecidableEq

/-- The mutable kinematic state of the `Skibot` object: `self.pos`,
`self.theta`, `self.vel`, `self.vel_rot`. -/
structure State where
  pos : Vec2
  theta : ℝ
  vel : Vec2
  vel_rot : ℝ
  deriving DecidableEq

/-- `np.clip(x, lo, hi)` for `lo ≤ hi`: values below `lo` become `lo`,
values above `hi` become `hi`. -/
def clip (x lo hi : ℝ) : ℝ := min (max x lo) hi

/-- `Skibot.set_pose(pos, theta)`. -/
def set_pose (s : State) (x y theta : ℝ) : State :=
  { s with pos := ⟨x, y⟩, theta := theta }

/-- `Skibot.set_vel_zero()`. -/
def set_vel_zero (s : State) : State :=
  { s with vel := ⟨0, 0⟩, vel_rot := 0 }

/-- Angular stage of `Skibot.update` before friction:
`torque = np.clip(wrench.torque.z, -MAX_TORQUE, MAX_TORQUE)`;
`no_fric_vel = self.vel_rot + (torque / MOMENT_OF_INERTIA) * dt`. -/
def angular_no_fric (vel_rot torque_z dt : ℝ) : ℝ :=
  vel_rot + (clip torque_z (-MAX_TORQUE) MAX_TORQUE / MOMENT_OF_INERTIA) * dt

/-- Angular friction stage of `Skibot.update`:
`angular_acc_fric = -np.sign(no_fric_vel) * TORQUE_FRICTION / MOMENT_OF_INERTIA`;
`angular_vel_fric = no_fric_vel + angular_acc_fric * dt`;
zeroed when its sign differs from the sign of `no_fric_vel`. -/
def angular_with_fric (no_fric_vel dt : ℝ) : ℝ :=
  let angular_vel_fric :=
    no_fric_vel + -Real.sign no_fric_vel * TORQUE_FRICTION / MOMENT_OF_INERTIA * dt
  if Real.sign angular_vel_fric ≠ Real.sign no_fric_vel then 0 else angular_vel_fric

/-- Linear stage of `Skibot.update` before friction:
`force = np.clip(wrench.force.x, -MAX_FORCE, MAX_FORCE)`;
`acc = (sin(theta + pi/2), cos(theta + pi/2)) * (force / MASS)`;
`no_fric_vel = self.vel + acc * dt`. -/
def linear_no_fric (vel : Vec2) (theta force_x dt : ℝ) : Vec2 :=
  let linear_acc := clip force_x (-MAX_FORCE) MAX_FORCE / MASS
  ⟨vel.x + Real.sin (theta + Real.pi / 2) * linear_acc * dt,
   vel.y + Real.cos (theta + Real.pi / 2) * linear_acc * dt⟩

/-- `np.linalg.norm` of a 2-d vector. -/
def norm2 (v : Vec2) : ℝ := Real.sqrt (v.x ^ 2 + v.y ^ 2)

/-- Linear friction stage of `Skibot.update`: when `norm(no_fric_vel) > 0`,
`force_friction = -(no_fric_vel / norm(no_fric_vel)) * LINEAR_FRICTION`
(else zero); `fric_vel = no_fric_vel + (force_friction / MASS) * dt`;
then each component whose sign differs from the sign of the corresponding
`no_fric_vel` component is set to zero. -/
def linear_with_fric (no_fric_vel : Vec2) (dt : ℝ) : Vec2 :=
  let nrm := norm2 no_fric_vel
  let ffx := if nrm > 0 then -(no_fric_vel.x / nrm) * LINEAR_FRICTION else 0
  let ffy := if nrm > 0 then -(no_fric_vel.y / nrm) * LINEAR_FRICTION else 0
  let fvx := no_fric_vel.x + ffx / MASS * dt
  let fvy := no_fric_vel.y + ffy / MASS * dt
  ⟨if Real.sign fvx ≠ Real.sign no_fric_vel.x then 0 else fvx,
   if Real.sign fvy ≠ Real.sign no_fric_vel.y then 0 else fvy⟩

/-- The two x-axis `if` statements of the bounce code of `Skibot.update`,
in source order: clamp `pos[0]` to the width and negate `vel[0]` when
`pos[0]` exceeds the screen width; clamp to `0` and negate when below
zero.  The screen is `SCREEN_WIDTH_PX` pixels wide, so the bound in meters
is `SCREEN_WIDTH_M`. -/
def bounce_x (s : State) : State :=
  let s1 := if s.pos.x > SCREEN_WIDTH_M then
      { s with pos := ⟨SCREEN_WIDTH_M, s.pos.y⟩, vel := ⟨-s.vel.x, s.vel.y⟩ }
    else s
  if s1.pos.x < 0 then
      { s1 with pos := ⟨0, s1.pos.y⟩, vel := ⟨-s1.vel.x, s1.vel.y⟩ }
    else s1

/-- The two y-axis `if` statements of the bounce code of `Skibot.update`,
in source order, against `SCREEN_HEIGHT_M`. -/
def bounce_y (s : State) : State :=
  let s3 := if s.pos.y > SCREEN_HEIGHT_M then
      { s with pos := ⟨s.pos.x, SCREEN_HEIGHT_M⟩, vel := ⟨s.vel.x, -s.vel.y⟩ }
    else s
  if s3.pos.y < 0 then
      { s3 with pos := ⟨s3.pos.x, 0⟩, vel := ⟨s3.vel.x, -s3.vel.y⟩ }
    else s3

/-- Boundary bounce of `Skibot.update`: the four `if` statements in source
order — both x checks, then both y checks. -/
def apply_bounce (s : State) : State := bounce_y (bounce_x s)

/-- `Skibot.update(wrench, dt)` (physics only; drawing is outside the model).
The engine reads only `wrench.force.x` and `wrench.torque.z`. -/
def update (s : State) (force_x torque_z dt : ℝ) : State :=
  let vel_rot := angular_with_fric (angular_no_fric s.vel_rot torque_z dt) dt
  let vel := linear_with_fric (linear_no_fric s.vel s.theta force_x dt) dt
  let pos : Vec2 := ⟨s.pos.x + vel.x * dt, s.pos.y + vel.y * dt⟩
  let theta := s.theta + vel_rot * dt
  apply_bounce ⟨pos, theta, vel, vel_rot⟩

/-- The position invariant: `self.pos` lies in the simulation area
`[0, SCREEN_WIDTH_M] × [0, SCREEN_HEIGHT_M]`. -/
def inBounds (s : State) : Prop :=
  0 ≤ s.pos.x ∧ s.pos.x ≤ SCREEN_WIDTH_M ∧ 0 ≤ s.pos.y ∧ s.pos.y ≤ SCREEN_HEIGHT_M

/-- The rocket constructed in `SkibotNode.__init__`:
`Skibot(screen, (SCREEN_WIDTH_M/2, SCREEN_HEIGHT_M/2), 0.0)`, which sets the
pose and zeroes the velocities. -/
def initial_rocket : State :=
  ⟨⟨SCREEN_WIDTH_M / 2, SCREEN_HEIGHT_M / 2⟩, 0, ⟨0, 0⟩, 0⟩

end Skibot

namespace SkibotNode

open Skibot

/-- The two fields of a `geometry_msgs/Wrench` that the engine and the
staleness check consume: `force.x` and `torque.z`.  A freshly constructed
`Wrench()` is all-zero. -/
structure Wrench2 where
  force_x : ℝ
  torque_z : ℝ
  deriving DecidableEq

/-- The node state touched by the claims: the rocket, the current command
`self.cur_wrench`, its receipt time `self.thrust_start`, and the attribute
`self.wrench` that only `handle_teleport_service` ever assigns (absent
until then). -/
structure NodeState where
  rocket : Skibot.State
  cur_wrench : Wrench2
  thrust_start : ℝ
  wrench : Option Wrench2

/-- `SkibotNode.wrench_callback(wrench)`: records the receipt time and
overwrites the current command. -/
def wrench_callback (n : NodeState) (w : Wrench2) (now : ℝ) : NodeState :=
  { n with thrust_start := now, cur_wrench := w }

/-- `SkibotNode.handle_teleport_service`: rejects a target outside
`[0, SCREEN_WIDTH_M] × [0, SCREEN_HEIGHT_M]` with response `False` and no
state change; otherwise sets the rocket pose, zeroes its velocities,
assigns a fresh zero wrench to `self.wrench`, and responds `True`. -/
def handle_teleport (n : NodeState) (x y theta : ℝ) : NodeState × Bool :=
  if x < 0 ∨ x > SCREEN_WIDTH_M ∨ y < 0 ∨ y > SCREEN_HEIGHT_M then
    (n, false)
  else
    ({ n with rocket := set_vel_zero (set_pose n.rocket x y theta),
              wrench := some ⟨0, 0⟩ }, true)

/-- The staleness guard of `SkibotNode.run`:
`(cur_wrench.force.x != 0 or cur_wrench.torque.z != 0) and
 time.time() > thrust_start + .6`. -/
def stale_triggered (cur : Wrench2) (thrust_start now : ℝ) : Prop :=
  (cur.force_x ≠ 0 ∨ cur.torque_z ≠ 0) ∧ now > thrust_start + 0.6

instance stale_triggered_dec (cur : Wrench2) (a b : ℝ) :
    Decidable (stale_triggered cur a b) := by
  unfold stale_triggered; infer_instance

/-- The staleness stage of one tick of `SkibotNode.run`: when the guard
fires, `self.cur_wrench = Wrench()`; the result is the command passed to
`self.rocket.update` on that tick. -/
def stale_filter (cur : Wrench2) (thrust_start now : ℝ) : Wrench2 :=
  if stale_triggered cur thrust_start now then ⟨0, 0⟩ else cur

/-- The command applied over a run of consecutive ticks at times `ts` with
no intervening `wrench_callback`: the staleness stage folded over the tick
times. -/
def run_stale (cur : Wrench2) (thrust_start : ℝ) : List ℝ → Wrench2
  | [] => cur
  | t :: ts => run_stale (stale_filter cur thrust_start t) thrust_start ts

/-- The angle published by `SkibotNode.run`:
`(theta + np.pi) % (2 * np.pi) - np.pi`, with Python's nonnegative `%`
(`a % b = a - b * floor(a / b)` for `b > 0`). -/
def wrap_angle (theta : ℝ) : ℝ :=
  ((theta + Real.pi) - 2 * Real.pi * ⌊(theta + Real.pi) / (2 * Real.pi)⌋) - Real.pi

/-- The `Pose` message published by `SkibotNode.run`:
`Pose(pos[0], SCREEN_HEIGHT_PX / PIXELS_PER_METER - pos[1], angle,
vel[0], vel[1], vel_rot)`. -/
structure Pose where
  x : ℝ
  y : ℝ
  theta : ℝ
  x_vel : ℝ
  y_vel : ℝ
  theta_vel : ℝ

/-- Construction of the published pose from the rocket state in
`SkibotNode.run`. -/
def published_pose (s : Skibot.State) : Pose :=
  ⟨s.pos.x, SCREEN_HEIGHT_PX / PIXELS_PER_METER - s.pos.y,
   wrap_angle s.theta, s.vel.x, s.vel.y, s.vel_rot⟩

end SkibotNode

namespace Skibot

lemma SCREEN_WIDTH_M_eq : SCREEN_WIDTH_M = 4 := by
  norm_num [SCREEN_WIDTH_M, SCREEN_WIDTH_PX, PIXELS_PER_METER]

lemma SCREEN_HEIGHT_M_eq : SCREEN_HEIGHT_M = 4 := by
  norm_num [SCREEN_HEIGHT_M, SCREEN_HEIGHT_PX, PIXELS_PER_METER]

lemma pos_of_sign_eq_one {x : ℝ} (h : Real.sign x = 1) : 0 < x := by
  rcases lt_trichotomy x 0 with hx | hx | hx
  · rw [Real.sign_of_neg hx] at h; norm_num at h
  · rw [hx, Real.sign_zero] at h; norm_num at h
  · exact hx

lemma neg_of_sign_eq_neg_one {x : ℝ} (h : Real.sign x = -1) : x < 0 := by
  rcases lt_trichotomy x 0 with hx | hx | hx
  · exact hx
  · rw [hx, Real.sign_zero] at h; norm_num at h
  · rw [Real.sign_of_pos hx] at h; norm_num at h

/-- If scaling by a factor at most `1` preserves the sign of a value, it does
not increase its absolute value. -/
lemma abs_mul_le_of_sign_eq {a k : ℝ} (hk : k ≤ 1)
    (h : Real.sign (a * k) = Real.sign a) : |a * k| ≤ |a| := by
  rcases lt_trichotomy a 0 with ha | ha | ha
  · rw [Real.sign_of_neg ha] at h
    have hak : a * k < 0 := neg_of_sign_eq_neg_one h
    rw [abs_of_neg ha, abs_of_neg hak]
    nlinarith
  · simp [ha]
  · rw [Real.sign_of_pos ha] at h
    have hak : 0 < a * k := pos_of_sign_eq_one h
    rw [abs_of_pos ha, abs_of_pos hak]
    nlinarith

end Skibot

namespace SkibotNode

open Skibot

/-- **C4.** A teleport request with the target inside `[0, W] × [0, H]`
succeeds, setting the rocket's position and orientation to the requested
values and both velocities to exactly zero; a request with the target
outside that rectangle fails and leaves the whole node state — in
particular every Body field — unchanged. -/
theorem C4_teleport_validity (n : NodeState) (x y θ : ℝ) :
    (0 ≤ x ∧ x ≤ SCREEN_WIDTH_M ∧ 0 ≤ y ∧ y ≤ SCREEN_HEIGHT_M →
      handle_teleport n x y θ =
        ({ n with rocket := ⟨⟨x, y⟩, θ, ⟨0, 0⟩, 0⟩, wrench := some ⟨0, 0⟩ }, true)) ∧
    (x < 0 ∨ x > SCREEN_WIDTH_M ∨ y < 0 ∨ y > SCREEN_HEIGHT_M →
      handle_teleport n x y θ = (n, false)) := by
  constructor
  · intro h
    have hg : ¬ (x < 0 ∨ x > SCREEN_WIDTH_M ∨ y < 0 ∨ y > SCREEN_HEIGHT_M) := by
      push_neg
      exact ⟨h.1, h.2.1, h.2.2.1, h.2.2.2⟩
    simp only [handle_teleport, if_neg hg]
    rfl
  · intro h
    simp only [handle_teleport, if_pos h]

theorem C4_teleport_validity_witness :
    handle_teleport ⟨initial_rocket, ⟨1, 0⟩, 0, none⟩ 1 2 3 =
      (⟨⟨⟨1, 2⟩, 3, ⟨0, 0⟩, 0⟩, ⟨1, 0⟩, 0, some ⟨0, 0⟩⟩, true) ∧
    handle_teleport ⟨initial_rocket, ⟨1, 0⟩, 0, none⟩ (-1) 2 0 =
      (⟨initial_rocket, ⟨1, 0⟩, 0, none⟩, false) :=
  ⟨(C4_teleport_validity ⟨initial_rocket, ⟨1, 0⟩, 0, none⟩ 1 2 3).1
      (by norm_num [SCREEN_WIDTH_M_eq, SCREEN_HEIGHT_M_eq]),
   (C4_teleport_validity ⟨initial_rocket, ⟨1, 0⟩, 0, none⟩ (-1) 2 0).2
      (by norm_num)⟩

lemma stale_filter_zero (start now : ℝ) :
    stale_filter ⟨0, 0⟩ start now = ⟨0, 0⟩ := by
  unfold stale_filter
  split <;> rfl

lemma run_stale_zero (start : ℝ) (ts : List ℝ) :
    run_stale ⟨0, 0⟩ start ts = ⟨0, 0⟩ := by
  induction ts with
  | nil => rfl
  | cons t ts ih => rw [run_stale, stale_filter_zero, ih]

/-- **C5.** If the current command is not all-zero and the tick happens more
than `0.6` seconds after the command's receipt, the command applied to that
tick and to every subsequent tick (absent a new command) is the zero
wrench; an all-zero current command never fires the staleness guard. -/
theorem C5_staleness_failsafe (cur : Wrench2) (start now : ℝ) (ts : List ℝ) :
    ((cur.force_x ≠ 0 ∨ cur.torque_z ≠ 0) → now > start + 0.6 →
      stale_filter cur start now = ⟨0, 0⟩ ∧
      run_stale cur start (now :: ts) = ⟨0, 0⟩) ∧
    ¬ stale_triggered ⟨0, 0⟩ start now := by
  constructor
  · intro h1 h2
    have hf : stale_filter cur start now = ⟨0, 0⟩ := by
      unfold stale_filter
      rw [if_pos ⟨h1, h2⟩]
    exact ⟨hf, by rw [run_stale, hf, run_stale_zero]⟩
  · intro h
    rcases h.1 with h1 | h1 <;> exact h1 rfl

theorem C5_staleness_failsafe_witness :
    (stale_filter ⟨1, 0⟩ 0 1 = ⟨0, 0⟩ ∧ run_stale ⟨1, 0⟩ 0 [1, 2] = ⟨0, 0⟩) ∧
    ¬ stale_triggered ⟨0, 0⟩ 0 1 :=
  ⟨(C5_staleness_failsafe ⟨1, 0⟩ 0 1 [2]).1 (Or.inl one_ne_zero) (by norm_num),
   (C5_staleness_failsafe ⟨1, 0⟩ 0 1 [2]).2⟩

/-- **C9.** A successful teleport returns `true` but leaves `cur_wrench`
and `thrust_start` unchanged — the handler writes a fresh zero wrench only
to the otherwise-unused attribute `self.wrench` — so a subsequent tick
still within the staleness window applies the previously received command
unchanged. -/
theorem C9_teleport_keeps_command (n : NodeState) (x y θ : ℝ)
    (hx0 : 0 ≤ x) (hxW : x ≤ SCREEN_WIDTH_M)
    (hy0 : 0 ≤ y) (hyH : y ≤ SCREEN_HEIGHT_M) :
    (handle_teleport n x y θ).2 = true ∧
    (handle_teleport n x y θ).1.cur_wrench = n.cur_wrench ∧
    (handle_teleport n x y θ).1.thrust_start = n.thrust_start ∧
    (handle_teleport n x y θ).1.wrench = some ⟨0, 0⟩ ∧
    ∀ now, ¬ now > n.thrust_start + 0.6 →
      stale_filter (handle_teleport n x y θ).1.cur_wrench
        (handle_teleport n x y θ).1.thrust_start now = n.cur_wrench := by
  have hg : ¬ (x < 0 ∨ x > SCREEN_WIDTH_M ∨ y < 0 ∨ y > SCREEN_HEIGHT_M) := by
    push_neg
    exact ⟨hx0, hxW, hy0, hyH⟩
  simp only [handle_teleport, if_neg hg]
  refine ⟨trivial, trivial, trivial, trivial, fun now hnow => ?_⟩
  unfold stale_filter
  rw [if_neg (fun ht => hnow ht.2)]

theorem C9_teleport_keeps_command_witness :
    (handle_teleport ⟨initial_rocket, ⟨2, 0⟩, 5, none⟩ 1 2 0).2 = true ∧
    (handle_teleport ⟨initial_rocket, ⟨2, 0⟩, 5, none⟩ 1 2 0).1.cur_wrench = ⟨2, 0⟩ ∧
    (handle_teleport ⟨initial_rocket, ⟨2, 0⟩, 5, none⟩ 1 2 0).1.thrust_start = 5 ∧
    (handle_teleport ⟨initial_rocket, ⟨2, 0⟩, 5, none⟩ 1 2 0).1.wrench = some ⟨0, 0⟩ ∧
    stale_filter (handle_teleport ⟨initial_rocket, ⟨2, 0⟩, 5, none⟩ 1 2 0).1.cur_wrench
      (handle_teleport ⟨initial_rocket, ⟨2, 0⟩, 5, none⟩ 1 2 0).1.thrust_start 5 = ⟨2, 0⟩ := by
  have h := C9_teleport_keeps_command ⟨initial_rocket, ⟨2, 0⟩, 5, none⟩ 1 2 0
    (by norm_num) (by norm_num [SCREEN_WIDTH_M_eq]) (by norm_num)
    (by norm_num [SCREEN_HEIGHT_M_eq])
  exact ⟨h.1, h.2.1, h.2.2.1, h.2.2.2.1, h.2.2.2.2 5 (by norm_num)⟩

end SkibotNode

namespace Skibot

/-- Unfolding of `update` into its stages. -/
lemma update_eq_bounce (s : State) (f tz dt : ℝ) :
    update s f tz dt = apply_bounce
      ⟨⟨s.pos.x + (linear_with_fric (linear_no_fric s.vel s.theta f dt) dt).x * dt,
        s.pos.y + (linear_with_fric (linear_no_fric s.vel s.theta f dt) dt).y * dt⟩,
       s.theta + angular_with_fric (angular_no_fric s.vel_rot tz dt) dt * dt,
       linear_with_fric (linear_no_fric s.vel s.theta f dt) dt,
       angular_with_fric (angular_no_fric s.vel_rot tz dt) dt⟩ := rfl

/-- The x-axis bounce never touches the y components, the orientation or
the angular velocity. -/
lemma bounce_x_keeps_rest (s : State) :
    (bounce_x s).pos.y = s.pos.y ∧ (bounce_x s).vel.y = s.vel.y ∧
    (bounce_x s).theta = s.theta ∧ (bounce_x s).vel_rot = s.vel_rot := by
  simp only [bounce_x]
  split_ifs <;> simp

/-- The y-axis bounce never touches the x components, the orientation or
the angular velocity. -/
lemma bounce_y_keeps_rest (s : State) :
    (bounce_y s).pos.x = s.pos.x ∧ (bounce_y s).vel.x = s.vel.x ∧
    (bounce_y s).theta = s.theta ∧ (bounce_y s).vel_rot = s.vel_rot := by
  simp only [bounce_y]
  split_ifs <;> simp

lemma bounce_x_high (s : State) (h : s.pos.x > SCREEN_WIDTH_M) :
    (bounce_x s).pos.x = SCREEN_WIDTH_M ∧ (bounce_x s).vel.x = -s.vel.x := by
  simp only [bounce_x, if_pos h]
  rw [if_neg (by norm_num [SCREEN_WIDTH_M_eq])]
  simp

lemma bounce_x_low (s : State) (h : s.pos.x < 0) :
    (bounce_x s).pos.x = 0 ∧ (bounce_x s).vel.x = -s.vel.x := by
  have h1 : ¬ s.pos.x > SCREEN_WIDTH_M := by rw [SCREEN_WIDTH_M_eq]; linarith
  simp only [bounce_x, if_neg h1, if_pos h]
  simp

lemma bounce_x_in (s : State) (h0 : 0 ≤ s.pos.x) (hW : s.pos.x ≤ SCREEN_WIDTH_M) :
    bounce_x s = s := by
  simp only [bounce_x]
  rw [if_neg (not_lt.2 hW), if_neg (not_lt.2 h0)]

lemma bounce_y_high (s : State) (h : s.pos.y > SCREEN_HEIGHT_M) :
    (bounce_y s).pos.y = SCREEN_HEIGHT_M ∧ (bounce_y s).vel.y = -s.vel.y := by
  simp only [bounce_y, if_pos h]
  rw [if_neg (by norm_num [SCREEN_HEIGHT_M_eq])]
  simp

lemma bounce_y_low (s : State) (h : s.pos.y < 0) :
    (bounce_y s).pos.y = 0 ∧ (bounce_y s).vel.y = -s.vel.y := by
  have h3 : ¬ s.pos.y > SCREEN_HEIGHT_M := by rw [SCREEN_HEIGHT_M_eq]; linarith
  simp only [bounce_y, if_neg h3, if_pos h]
  simp

lemma bounce_y_in (s : State) (h0 : 0 ≤ s.pos.y) (hH : s.pos.y ≤ SCREEN_HEIGHT_M) :
    bounce_y s = s := by
  simp only [bounce_y]
  rw [if_neg (not_lt.2 hH), if_neg (not_lt.2 h0)]

lemma bounce_x_bounds (s : State) :
    0 ≤ (bounce_x s).pos.x ∧ (bounce_x s).pos.x ≤ SCREEN_WIDTH_M := by
  simp only [bounce_x]
  split_ifs <;> simp_all [SCREEN_WIDTH_M_eq]

lemma bounce_y_bounds (s : State) :
    0 ≤ (bounce_y s).pos.y ∧ (bounce_y s).pos.y ≤ SCREEN_HEIGHT_M := by
  simp only [bounce_y]
  split_ifs <;> simp_all [SCREEN_HEIGHT_M_eq]

/-- The bounce stage leaves a state whose position already satisfies the
area bounds unchanged. -/
lemma apply_bounce_of_inBounds (s : State) (h : inBounds s) : apply_bounce s = s := by
  obtain ⟨h1, h2, h3, h4⟩ := h
  rw [apply_bounce, bounce_x_in s h1 h2, bounce_y_in s h3 h4]

/-- The bounce stage always produces a position inside the area. -/
lemma bounce_inBounds (s : State) : inBounds (apply_bounce s) := by
  rw [apply_bounce, inBounds]
  have hx := bounce_x_bounds s
  have hkx := bounce_y_keeps_rest (bounce_x s)
  have hy := bounce_y_bounds (bounce_x s)
  rw [hkx.1]
  exact ⟨hx.1, hx.2, hy.1, hy.2⟩

/-- **C3.** Boundary collision is elastic and clamping, per axis, with the
x checks before the y checks: a position component beyond a wall by `ε > 0`
is clamped to the wall and the matching velocity component is negated;
orientation and angular velocity are never touched, and the other axis is
untouched whenever it is within its own bounds. -/
theorem C3_bounce_elastic (s : State) (ε : ℝ) (hε : ε > 0) :
    (apply_bounce s).theta = s.theta ∧
    (apply_bounce s).vel_rot = s.vel_rot ∧
    (s.pos.x = SCREEN_WIDTH_M + ε →
      (apply_bounce s).pos.x = SCREEN_WIDTH_M ∧ (apply_bounce s).vel.x = -s.vel.x ∧
      (0 ≤ s.pos.y → s.pos.y ≤ SCREEN_HEIGHT_M →
        (apply_bounce s).pos.y = s.pos.y ∧ (apply_bounce s).vel.y = s.vel.y)) ∧
    (s.pos.x = 0 - ε →
      (apply_bounce s).pos.x = 0 ∧ (apply_bounce s).vel.x = -s.vel.x ∧
      (0 ≤ s.pos.y → s.pos.y ≤ SCREEN_HEIGHT_M →
        (apply_bounce s).pos.y = s.pos.y ∧ (apply_bounce s).vel.y = s.vel.y)) ∧
    (s.pos.y = SCREEN_HEIGHT_M + ε →
      (apply_bounce s).pos.y = SCREEN_HEIGHT_M ∧ (apply_bounce s).vel.y = -s.vel.y ∧
      (0 ≤ s.pos.x → s.pos.x ≤ SCREEN_WIDTH_M →
        (apply_bounce s).pos.x = s.pos.x ∧ (apply_bounce s).vel.x = s.vel.x)) ∧
    (s.pos.y = 0 - ε →
      (apply_bounce s).pos.y = 0 ∧ (apply_bounce s).vel.y = -s.vel.y ∧
      (0 ≤ s.pos.x → s.pos.x ≤ SCREEN_WIDTH_M →
        (apply_bounce s).pos.x = s.pos.x ∧ (apply_bounce s).vel.x = s.vel.x)) := by
  have hky := bounce_x_keeps_rest s
  refine ⟨?_, ?_, ?_, ?_, ?_, ?_⟩
  · rw [apply_bounce, (bounce_y_keeps_rest _).2.2.1, hky.2.2.1]
  · rw [apply_bounce, (bounce_y_keeps_rest _).2.2.2, hky.2.2.2]
  · intro hx
    have c1 : s.pos.x > SCREEN_WIDTH_M := by rw [hx]; linarith
    have hbx := bounce_x_high s c1
    refine ⟨?_, ?_, fun hy0 hyH => ?_⟩
    · rw [apply_bounce, (bounce_y_keeps_rest _).1, hbx.1]
    · rw [apply_bounce, (bounce_y_keeps_rest _).2.1, hbx.2]
    · have heq : bounce_y (bounce_x s) = bounce_x s :=
        bounce_y_in _ (by rw [hky.1]; exact hy0) (by rw [hky.1]; exact hyH)
      rw [apply_bounce, heq]
      exact ⟨hky.1, hky.2.1⟩
  · intro hx
    have c2 : s.pos.x < 0 := by rw [hx]; linarith
    have hbx := bounce_x_low s c2
    refine ⟨?_, ?_, fun hy0 hyH => ?_⟩
    · rw [apply_bounce, (bounce_y_keeps_rest _).1, hbx.1]
    · rw [apply_bounce, (bounce_y_keeps_rest _).2.1, hbx.2]
    · have heq : bounce_y (bounce_x s) = bounce_x s :=
        bounce_y_in _ (by rw [hky.1]; exact hy0) (by rw [hky.1]; exact hyH)
      rw [apply_bounce, heq]
      exact ⟨hky.1, hky.2.1⟩
  · intro hy
    have c3 : (bounce_x s).pos.y > SCREEN_HEIGHT_M := by rw [hky.1, hy]; linarith
    have hby := bounce_y_high _ c3
    refine ⟨?_, ?_, fun hx0 hxW => ?_⟩
    · rw [apply_bounce, hby.1]
    · rw [apply_bounce, hby.2, hky.2.1]
    · have heq : bounce_x s = s := bounce_x_in s hx0 hxW
      rw [apply_bounce, heq]
      exact ⟨(bounce_y_keeps_rest s).1, (bounce_y_keeps_rest s).2.1⟩
  · intro hy
    have c4 : (bounce_x s).pos.y < 0 := by rw [hky.1, hy]; linarith
    have hby := bounce_y_low _ c4
    refine ⟨?_, ?_, fun hx0 hxW => ?_⟩
    · rw [apply_bounce, hby.1]
    · rw [apply_bounce, hby.2, hky.2.1]
    · have heq : bounce_x s = s := bounce_x_in s hx0 hxW
      rw [apply_bounce, heq]
      exact ⟨(bounce_y_keeps_rest s).1, (bounce_y_keeps_rest s).2.1⟩

theorem C3_bounce_elastic_witness :
    (apply_bounce ⟨⟨4.05, 2⟩, 0, ⟨0.5, 0⟩, 0⟩).pos.x = SCREEN_WIDTH_M ∧
    (apply_bounce ⟨⟨4.05, 2⟩, 0, ⟨0.5, 0⟩, 0⟩).vel.x = -(0.5 : ℝ) ∧
    (apply_bounce ⟨⟨4.05, 2⟩, 0, ⟨0.5, 0⟩, 0⟩).pos.y = 2 ∧
    (apply_bounce ⟨⟨4.05, 2⟩, 0, ⟨0.5, 0⟩, 0⟩).vel.y = 0 := by
  have h := C3_bounce_elastic ⟨⟨4.05, 2⟩, 0, ⟨0.5, 0⟩, 0⟩ 0.05 (by norm_num)
  have hx := h.2.2.1 (by norm_num [SCREEN_WIDTH_M_eq])
  exact ⟨hx.1, hx.2.1,
    (hx.2.2 (by norm_num) (by norm_num [SCREEN_HEIGHT_M_eq])).1,
    (hx.2.2 (by norm_num) (by norm_num [SCREEN_HEIGHT_M_eq])).2⟩

end Skibot

namespace SkibotNode

open Skibot

/-- **C8.** The position invariant `pos ∈ [0, W] × [0, H]` is preserved by
one `update` step (for any command and `dt`), by the teleport handler, and
holds for the initially constructed rocket. -/
theorem C8_position_invariant (s : Skibot.State) (f tz dt : ℝ)
    (n : NodeState) (x y θ : ℝ) :
    (inBounds s → inBounds (update s f tz dt)) ∧
    (inBounds n.rocket → inBounds (handle_teleport n x y θ).1.rocket) ∧
    inBounds initial_rocket := by
  refine ⟨fun _ => ?_, fun hn => ?_, ?_⟩
  · rw [update_eq_bounce]
    exact bounce_inBounds _
  · unfold handle_teleport
    split_ifs with h
    · exact hn
    · push_neg at h
      simp only [set_vel_zero, set_pose, inBounds]
      exact ⟨h.1, h.2.1, h.2.2.1, h.2.2.2⟩
  · refine ⟨?_, ?_, ?_, ?_⟩ <;>
      norm_num [inBounds, initial_rocket, SCREEN_WIDTH_M_eq, SCREEN_HEIGHT_M_eq]

theorem C8_position_invariant_witness :
    inBounds (update initial_rocket 1 1 1) ∧
    inBounds (handle_teleport ⟨initial_rocket, ⟨0, 0⟩, 0, none⟩ 3 3 0).1.rocket ∧
    inBounds initial_rocket := by
  have h := C8_position_invariant initial_rocket 1 1 1
    ⟨initial_rocket, ⟨0, 0⟩, 0, none⟩ 3 3 0
  have hinit : inBounds initial_rocket := h.2.2
  exact ⟨h.1 hinit, h.2.1 hinit, hinit⟩

end SkibotNode

namespace Skibot

lemma angular_with_fric_zero (dt : ℝ) : angular_with_fric 0 dt = 0 := by
  simp [angular_with_fric]

lemma linear_with_fric_zero (dt : ℝ) : linear_with_fric ⟨0, 0⟩ dt = ⟨0, 0⟩ := by
  simp [linear_with_fric, norm2]

/-- **C10.** Rest is a fixed point: a body inside the area with zero linear
and angular velocity is left exactly unchanged by an update step with zero
force, zero torque and any `dt ≥ 0`. -/
theorem C10_rest_fixed_point (s : State) (dt : ℝ) (hin : inBounds s)
    (hv : s.vel = ⟨0, 0⟩) (hw : s.vel_rot = 0) (hdt : 0 ≤ dt) :
    update s 0 0 dt = s := by
  have hclipT : clip 0 (-MAX_TORQUE) MAX_TORQUE = 0 := by
    norm_num [clip, MAX_TORQUE]
  have hclipF : clip 0 (-MAX_FORCE) MAX_FORCE = 0 := by
    norm_num [clip, MAX_FORCE]
  have hanf : angular_no_fric s.vel_rot 0 dt = 0 := by
    rw [angular_no_fric, hclipT, hw]; ring
  have hlnf : linear_no_fric s.vel s.theta 0 dt = ⟨0, 0⟩ := by
    rw [hv]
    simp [linear_no_fric, hclipF]
  rw [update_eq_bounce, hanf, hlnf, angular_with_fric_zero, linear_with_fric_zero]
  have hstate : (⟨⟨s.pos.x + (Vec2.mk 0 0).x * dt, s.pos.y + (Vec2.mk 0 0).y * dt⟩,
      s.theta + 0 * dt, ⟨0, 0⟩, 0⟩ : State) = ⟨s.pos, s.theta, s.vel, s.vel_rot⟩ := by
    rw [hv, hw]
    simp
  rw [hstate]
  exact apply_bounce_of_inBounds s hin

theorem C10_rest_fixed_point_witness :
    update ⟨⟨2, 2⟩, 1, ⟨0, 0⟩, 0⟩ 0 0 (1/100) = ⟨⟨2, 2⟩, 1, ⟨0, 0⟩, 0⟩ :=
  C10_rest_fixed_point ⟨⟨2, 2⟩, 1, ⟨0, 0⟩, 0⟩ (1/100)
    (by norm_num [inBounds, SCREEN_WIDTH_M_eq, SCREEN_HEIGHT_M_eq])
    rfl rfl (by norm_num)

/-- Over-limit inputs clip to the signed limit, and the signed limit clips
to itself. -/
lemma clip_eq_sign_max {f m : ℝ} (hm : 0 ≤ m) (h : |f| > m) :
    clip f (-m) m = Real.sign f * m ∧
    clip (Real.sign f * m) (-m) m = Real.sign f * m := by
  rcases le_or_lt 0 f with hf | hf
  · rw [abs_of_nonneg hf] at h
    have hfpos : 0 < f := lt_of_le_of_lt hm h
    rw [Real.sign_of_pos hfpos, one_mul]
    constructor
    · rw [clip, max_eq_left (by linarith), min_eq_right (le_of_lt h)]
    · rw [clip, max_eq_left (by linarith), min_eq_right le_rfl]
  · rw [abs_of_neg hf] at h
    rw [Real.sign_of_neg hf]
    constructor
    · rw [clip, max_eq_right (by linarith), min_eq_left (by linarith)]; ring
    · rw [clip, max_eq_right (by linarith), min_eq_left (by linarith)]; ring

/-- **C7.** Commanding a force beyond `MAX_FORCE` produces exactly the same
next state as commanding `sign(force) * MAX_FORCE`; likewise for a torque
beyond `MAX_TORQUE`. -/
theorem C7_clamping (s : State) (f tz dt : ℝ) :
    (|f| > MAX_FORCE → update s f tz dt = update s (Real.sign f * MAX_FORCE) tz dt) ∧
    (|tz| > MAX_TORQUE → update s f tz dt = update s f (Real.sign tz * MAX_TORQUE) dt) := by
  constructor
  · intro h
    obtain ⟨h1, h2⟩ := clip_eq_sign_max (by norm_num [MAX_FORCE]) h
    have hl : linear_no_fric s.vel s.theta f dt =
        linear_no_fric s.vel s.theta (Real.sign f * MAX_FORCE) dt := by
      unfold linear_no_fric
      rw [h1, h2]
    rw [update_eq_bounce, update_eq_bounce, hl]
  · intro h
    obtain ⟨h1, h2⟩ := clip_eq_sign_max (by norm_num [MAX_TORQUE]) h
    have ha : angular_no_fric s.vel_rot tz dt =
        angular_no_fric s.vel_rot (Real.sign tz * MAX_TORQUE) dt := by
      unfold angular_no_fric
      rw [h1, h2]
    rw [update_eq_bounce, update_eq_bounce, ha]

theorem C7_clamping_witness :
    update ⟨⟨2, 2⟩, 0, ⟨0, 0⟩, 0⟩ 6 0 1 =
      update ⟨⟨2, 2⟩, 0, ⟨0, 0⟩, 0⟩ (Real.sign 6 * MAX_FORCE) 0 1 ∧
    update ⟨⟨2, 2⟩, 0, ⟨0, 0⟩, 0⟩ 0 1 1 =
      update ⟨⟨2, 2⟩, 0, ⟨0, 0⟩, 0⟩ 0 (Real.sign 1 * MAX_TORQUE) 1 :=
  ⟨(C7_clamping ⟨⟨2, 2⟩, 0, ⟨0, 0⟩, 0⟩ 6 0 1).1
      (by rw [abs_of_pos (by norm_num)]; norm_num [MAX_FORCE]),
   (C7_clamping ⟨⟨2, 2⟩, 0, ⟨0, 0⟩, 0⟩ 0 1 1).2
      (by rw [abs_of_pos (by norm_num)]; norm_num [MAX_TORQUE])⟩

lemma norm2_eq_zero {v : Vec2} (h : ¬ norm2 v > 0) : v.x = 0 ∧ v.y = 0 := by
  have h0 : norm2 v = 0 := le_antisymm (not_lt.1 h) (Real.sqrt_nonneg _)
  rw [norm2, Real.sqrt_eq_zero'] at h0
  have hx : v.x ^ 2 = 0 := le_antisymm (by nlinarith [sq_nonneg v.y]) (sq_nonneg _)
  have hy : v.y ^ 2 = 0 := le_antisymm (by nlinarith [sq_nonneg v.x]) (sq_nonneg _)
  exact ⟨pow_eq_zero_iff two_ne_zero |>.1 hx, pow_eq_zero_iff two_ne_zero |>.1 hy⟩

/-- The angular friction stage never grows the angular speed and never
flips its sign. -/
lemma angular_fric_ok (v0 dt : ℝ) (hdt : 0 ≤ dt) :
    |angular_with_fric v0 dt| ≤ |v0| ∧
    (Real.sign (angular_with_fric v0 dt) = Real.sign v0 ∨ angular_with_fric v0 dt = 0) := by
  have heq : angular_with_fric v0 dt =
      if Real.sign (v0 + -Real.sign v0 * TORQUE_FRICTION / MOMENT_OF_INERTIA * dt) ≠
          Real.sign v0
      then 0
      else v0 + -Real.sign v0 * TORQUE_FRICTION / MOMENT_OF_INERTIA * dt := rfl
  rw [heq]
  by_cases hs : Real.sign (v0 + -Real.sign v0 * TORQUE_FRICTION / MOMENT_OF_INERTIA * dt) ≠
      Real.sign v0
  · rw [if_pos hs]
    exact ⟨by simp, Or.inr rfl⟩
  · rw [if_neg hs]
    push_neg at hs
    have hCdt : 0 ≤ TORQUE_FRICTION / MOMENT_OF_INERTIA * dt :=
      mul_nonneg
        (by norm_num [TORQUE_FRICTION, MOMENT_OF_INERTIA, MU, MASS, GRAVITY, WIDTH]) hdt
    refine ⟨?_, Or.inl hs⟩
    rcases lt_trichotomy v0 0 with h0 | h0 | h0
    · rw [Real.sign_of_neg h0] at hs
      have hw := neg_of_sign_eq_neg_one hs
      rw [Real.sign_of_neg h0, abs_of_neg h0, abs_of_neg hw]
      have harith : - -1 * TORQUE_FRICTION / MOMENT_OF_INERTIA * dt =
          TORQUE_FRICTION / MOMENT_OF_INERTIA * dt := by ring
      rw [harith]
      linarith
    · subst h0
      simp
    · rw [Real.sign_of_pos h0] at hs
      have hw := pos_of_sign_eq_one hs
      rw [Real.sign_of_pos h0, abs_of_pos h0, abs_of_pos hw]
      have harith : -1 * TORQUE_FRICTION / MOMENT_OF_INERTIA * dt =
          -(TORQUE_FRICTION / MOMENT_OF_INERTIA * dt) := by ring
      rw [harith]
      linarith

/-- The linear friction stage never grows either velocity component and
never flips a component's sign. -/
lemma linear_fric_ok (v : Vec2) (dt : ℝ) (hdt : 0 ≤ dt) :
    (|(linear_with_fric v dt).x| ≤ |v.x| ∧
      (Real.sign (linear_with_fric v dt).x = Real.sign v.x ∨
        (linear_with_fric v dt).x = 0)) ∧
    (|(linear_with_fric v dt).y| ≤ |v.y| ∧
      (Real.sign (linear_with_fric v dt).y = Real.sign v.y ∨
        (linear_with_fric v dt).y = 0)) := by
  by_cases hn : norm2 v > 0
  · have heq : linear_with_fric v dt =
        ⟨if Real.sign (v.x + -(v.x / norm2 v) * LINEAR_FRICTION / MASS * dt) ≠
            Real.sign v.x
          then 0 else v.x + -(v.x / norm2 v) * LINEAR_FRICTION / MASS * dt,
         if Real.sign (v.y + -(v.y / norm2 v) * LINEAR_FRICTION / MASS * dt) ≠
            Real.sign v.y
          then 0 else v.y + -(v.y / norm2 v) * LINEAR_FRICTION / MASS * dt⟩ := by
      simp only [linear_with_fric, if_pos hn]
    have hcomp : ∀ a : ℝ,
        Real.sign (a + -(a / norm2 v) * LINEAR_FRICTION / MASS * dt) = Real.sign a →
        |a + -(a / norm2 v) * LINEAR_FRICTION / MASS * dt| ≤ |a| := by
      intro a hs
      have hnz : norm2 v ≠ 0 := ne_of_gt hn
      have hk : a + -(a / norm2 v) * LINEAR_FRICTION / MASS * dt =
          a * (1 - LINEAR_FRICTION / MASS * dt / norm2 v) := by
        field_simp
        ring
      have hk1 : 1 - LINEAR_FRICTION / MASS * dt / norm2 v ≤ 1 := by
        have h1 : 0 ≤ LINEAR_FRICTION / MASS * dt / norm2 v :=
          div_nonneg
            (mul_nonneg (by norm_num [LINEAR_FRICTION, MU, MASS, GRAVITY]) hdt)
            (le_of_lt hn)
        linarith
      rw [hk] at hs ⊢
      exact abs_mul_le_of_sign_eq hk1 hs
    rw [heq]
    constructor
    · by_cases hsx : Real.sign (v.x + -(v.x / norm2 v) * LINEAR_FRICTION / MASS * dt) ≠
          Real.sign v.x
      · rw [if_pos hsx]
        exact ⟨by simp, Or.inr rfl⟩
      · rw [if_neg hsx]
        push_neg at hsx
        exact ⟨hcomp v.x hsx, Or.inl hsx⟩
    · by_cases hsy : Real.sign (v.y + -(v.y / norm2 v) * LINEAR_FRICTION / MASS * dt) ≠
          Real.sign v.y
      · rw [if_pos hsy]
        exact ⟨by simp, Or.inr rfl⟩
      · rw [if_neg hsy]
        push_neg at hsy
        exact ⟨hcomp v.y hsy, Or.inl hsy⟩
  · obtain ⟨hx, hy⟩ := norm2_eq_zero hn
    have heq : linear_with_fric v dt = ⟨v.x, v.y⟩ := by
      simp only [linear_with_fric, if_neg hn]
      simp
    rw [heq]
    simp [hx, hy]

/-- **C2.** Within one step, the friction stage never increases the
magnitude of the angular velocity or of either linear velocity component,
and each post-friction component either keeps the sign of its pre-friction
(frictionless) value or is exactly zero. -/
theorem C2_friction_no_reverse (v0 : ℝ) (lv : Vec2) (dt : ℝ) (hdt : 0 ≤ dt) :
    (|angular_with_fric v0 dt| ≤ |v0| ∧
      (Real.sign (angular_with_fric v0 dt) = Real.sign v0 ∨
        angular_with_fric v0 dt = 0)) ∧
    (|(linear_with_fric lv dt).x| ≤ |lv.x| ∧
      (Real.sign (linear_with_fric lv dt).x = Real.sign lv.x ∨
        (linear_with_fric lv dt).x = 0)) ∧
    (|(linear_with_fric lv dt).y| ≤ |lv.y| ∧
      (Real.sign (linear_with_fric lv dt).y = Real.sign lv.y ∨
        (linear_with_fric lv dt).y = 0)) :=
  ⟨angular_fric_ok v0 dt hdt, (linear_fric_ok lv dt hdt).1, (linear_fric_ok lv dt hdt).2⟩

theorem C2_friction_no_reverse_witness :
    (|angular_with_fric 2 1| ≤ |(2 : ℝ)| ∧
      (Real.sign (angular_with_fric 2 1) = Real.sign 2 ∨ angular_with_fric 2 1 = 0)) ∧
    (|(linear_with_fric ⟨3, 4⟩ 1).x| ≤ |(3 : ℝ)| ∧
      (Real.sign (linear_with_fric ⟨3, 4⟩ 1).x = Real.sign 3 ∨
        (linear_with_fric ⟨3, 4⟩ 1).x = 0)) ∧
    (|(linear_with_fric ⟨3, 4⟩ 1).y| ≤ |(4 : ℝ)| ∧
      (Real.sign (linear_with_fric ⟨3, 4⟩ 1).y = Real.sign 4 ∨
        (linear_with_fric ⟨3, 4⟩ 1).y = 0)) :=
  C2_friction_no_reverse 2 ⟨3, 4⟩ 1 (by norm_num)

lemma scenario_no_fric : linear_no_fric ⟨0, 0⟩ 0 5 (1/35) = ⟨1/7, 0⟩ := by
  norm_num [linear_no_fric, clip, MAX_FORCE, MASS, Real.sin_pi_div_two,
    Real.cos_pi_div_two]

lemma scenario_fric : linear_with_fric ⟨1/7, 0⟩ (1/35) = ⟨(5 - 0.294) * (1/35), 0⟩ := by
  have hnrm : norm2 ⟨1/7, 0⟩ = 1/7 := by
    rw [norm2]
    dsimp only
    rw [show ((1:ℝ)/7) ^ 2 + (0:ℝ) ^ 2 = (1/7) ^ 2 from by norm_num]
    exact Real.sqrt_sq (by norm_num)
  have h7 : ((1:ℝ)/7) > 0 := by norm_num
  simp only [linear_with_fric, hnrm]
  rw [if_pos h7, if_pos h7]
  have hA : (1:ℝ)/7 + -(1/7 / (1/7)) * LINEAR_FRICTION / MASS * (1/35) =
      (5 - 0.294) * (1/35) := by
    norm_num [LINEAR_FRICTION, MU, MASS, GRAVITY]
  have hB : (0:ℝ) + -(0 / (1/7)) * LINEAR_FRICTION / MASS * (1/35) = 0 := by
    norm_num
  rw [hA, hB]
  have hsx : Real.sign ((5 - 0.294) * (1/35) : ℝ) = Real.sign ((1:ℝ)/7) := by
    rw [Real.sign_of_pos (by norm_num), Real.sign_of_pos (by norm_num)]
  rw [if_neg (fun hne => hne hsx), if_neg (fun hne => hne rfl)]

/-- The spec's concrete scenario, computed on the code: from rest at
`(2, 2)` with `θ = 0`, one step with `force = 5`, `torque = 0`,
`dt = 1/35`. -/
lemma scenario_update :
    update ⟨⟨2, 2⟩, 0, ⟨0, 0⟩, 0⟩ 5 0 (1/35) =
      ⟨⟨2 + (5 - 0.294) * (1/35) * (1/35), 2⟩, 0, ⟨(5 - 0.294) * (1/35), 0⟩, 0⟩ := by
  have hanf : angular_no_fric 0 0 (1/35) = 0 := by
    norm_num [angular_no_fric, clip, MAX_TORQUE]
  simp only [update_eq_bounce]
  rw [hanf, angular_with_fric_zero, scenario_no_fric, scenario_fric]
  dsimp only
  rw [show (2:ℝ) + 0 * (1/35:ℝ) = 2 from by norm_num,
    show (0:ℝ) + 0 * (1/35:ℝ) = 0 from by norm_num]
  exact apply_bounce_of_inBounds _
    (by norm_num [inBounds, SCREEN_WIDTH_M_eq, SCREEN_HEIGHT_M_eq])

/-- **C1, counterexample.** In the spec's concrete scenario the resulting
linear velocity is not directed along the `+y` axis: its y component is
zero and its x component is not (at `θ = 0` the code's thrust acts along
`+x`, since the acceleration is `(sin(θ+π/2), cos(θ+π/2))·(force/mass)`).
-/
theorem C1_scenario_counterexample :
    (update ⟨⟨2, 2⟩, 0, ⟨0, 0⟩, 0⟩ 5 0 (1/35)).vel.y = 0 ∧
    (update ⟨⟨2, 2⟩, 0, ⟨0, 0⟩, 0⟩ 5 0 (1/35)).vel.x ≠ 0 := by
  rw [scenario_update]
  constructor
  · rfl
  · norm_num

/-- **C1, amended.** One update step from rest at `(2, 2)`, `θ = 0` with
`force = 5`, `torque = 0`, `dt = 1/35` yields linear velocity of magnitude
exactly `(5 − 0.294)·(1/35) ≈ 0.1345` directed along the `+x` axis, with
zero angular velocity. -/
theorem C1_scenario :
    update ⟨⟨2, 2⟩, 0, ⟨0, 0⟩, 0⟩ 5 0 (1/35) =
      ⟨⟨2 + (5 - 0.294) * (1/35) * (1/35), 2⟩, 0, ⟨(5 - 0.294) * (1/35), 0⟩, 0⟩ ∧
    norm2 (update ⟨⟨2, 2⟩, 0, ⟨0, 0⟩, 0⟩ 5 0 (1/35)).vel = (5 - 0.294) * (1/35) ∧
    (update ⟨⟨2, 2⟩, 0, ⟨0, 0⟩, 0⟩ 5 0 (1/35)).vel_rot = 0 := by
  refine ⟨scenario_update, ?_, ?_⟩
  · rw [scenario_update]
    show Real.sqrt (((5 - 0.294) * (1/35)) ^ 2 + 0 ^ 2) = (5 - 0.294) * (1/35)
    rw [show ((5 - 0.294) * (1/35) : ℝ) ^ 2 + 0 ^ 2 = ((5 - 0.294) * (1/35)) ^ 2
      from by norm_num]
    exact Real.sqrt_sq (by norm_num)
  · rw [scenario_update]

end Skibot

namespace SkibotNode

open Skibot

lemma wrap_angle_pi : wrap_angle Real.pi = -Real.pi := by
  rw [wrap_angle, show Real.pi + Real.pi = 2 * Real.pi from by ring,
    div_self (by positivity : (2:ℝ) * Real.pi ≠ 0)]
  rw [Int.floor_one]
  push_cast
  ring

lemma wrap_angle_mem (θ : ℝ) : -Real.pi ≤ wrap_angle θ ∧ wrap_angle θ < Real.pi := by
  rw [wrap_angle]
  have h2π : (0:ℝ) < 2 * Real.pi := by positivity
  have hfr : (θ + Real.pi) - 2 * Real.pi * ⌊(θ + Real.pi) / (2 * Real.pi)⌋
      = 2 * Real.pi * Int.fract ((θ + Real.pi) / (2 * Real.pi)) := by
    rw [Int.fract]
    field_simp
  rw [hfr]
  constructor
  · have h0 : 0 ≤ 2 * Real.pi * Int.fract ((θ + Real.pi) / (2 * Real.pi)) :=
      mul_nonneg (le_of_lt h2π) (Int.fract_nonneg _)
    linarith
  · have h1 : 2 * Real.pi * Int.fract ((θ + Real.pi) / (2 * Real.pi)) <
        2 * Real.pi * 1 :=
      (mul_lt_mul_left h2π).2 (Int.fract_lt_one _)
    linarith

/-- **C6, counterexample.** With the body at internal position `(2, 1)` and
internal orientation `π`, the published y is `3 = H − 1`, not the internal
`y = 1`, and the published angle is `−π`, which lies outside `(−π, π]`. -/
theorem C6_pose_output_counterexample :
    (published_pose ⟨⟨2, 1⟩, Real.pi, ⟨0, 0⟩, 0⟩).y = 3 ∧
    (⟨⟨2, 1⟩, Real.pi, ⟨0, 0⟩, 0⟩ : Skibot.State).pos.y = 1 ∧
    (published_pose ⟨⟨2, 1⟩, Real.pi, ⟨0, 0⟩, 0⟩).y ≠
      (⟨⟨2, 1⟩, Real.pi, ⟨0, 0⟩, 0⟩ : Skibot.State).pos.y ∧
    (published_pose ⟨⟨2, 1⟩, Real.pi, ⟨0, 0⟩, 0⟩).theta = -Real.pi ∧
    ¬ (-Real.pi < (published_pose ⟨⟨2, 1⟩, Real.pi, ⟨0, 0⟩, 0⟩).theta) := by
  have hy : (published_pose ⟨⟨2, 1⟩, Real.pi, ⟨0, 0⟩, 0⟩).y = 3 := by
    norm_num [published_pose, SCREEN_HEIGHT_PX, PIXELS_PER_METER]
  have hth : (published_pose ⟨⟨2, 1⟩, Real.pi, ⟨0, 0⟩, 0⟩).theta = -Real.pi := by
    show wrap_angle Real.pi = -Real.pi
    exact wrap_angle_pi
  refine ⟨hy, rfl, ?_, hth, ?_⟩
  · rw [hy]
    norm_num
  · rw [hth]
    simp

/-- **C6, amended.** Every published pose reports
`y = SCREEN_HEIGHT_M − internal y` (the internal y flipped across the
area), and the angle as the internal orientation wrapped into the
half-open interval `[−π, π)`. -/
theorem C6_pose_output (s : Skibot.State) :
    (published_pose s).y = SCREEN_HEIGHT_M - s.pos.y ∧
    (published_pose s).theta = wrap_angle s.theta ∧
    -Real.pi ≤ (published_pose s).theta ∧ (published_pose s).theta < Real.pi :=
  ⟨rfl, rfl, (wrap_angle_mem s.theta).1, (wrap_angle_mem s.theta).2⟩

end SkibotNode

end
